import Mathlib

/-!
Verification of the pysynscan mount-control library: a shallow embedding of
the wire-protocol codec (synscan/protocol.py), the UDP retry wrapper
(synscan/udp.py) and the motor/mount arithmetic (synscan/motorizedbase.py),
with theorems settling the specified properties.

Byte strings are modelled as `List Nat` of byte values (ASCII codes).
Python float arithmetic is modelled over `ℚ`; Python `int(x)` truncation
toward zero is `pythonInt`.
-/

/-! ## Codec: synscan/protocol.py -/

/-- The `Channel` enum: fixed one-byte wire codes. -/
inductive Channel
  | Channel1
  | Channel2
  | BothChannels
deriving DecidableEq, Repr

/-- `Channel.to_bytes`: Channel1 = b"1", Channel2 = b"2", BothChannels = b"3". -/
def Channel.to_bytes : Channel → List Nat
  | .Channel1 => [49]
  | .Channel2 => [50]
  | .BothChannels => [51]

/-- The `Command` enum of operation codes. -/
inductive Command
  | SetPosition
  | InitializationDone
  | SetMotionMode
  | SetGotoTarget
  | SetStepPeriod
  | StartMotion
  | StopMotion
  | InstantStop
  | SetAuxSwitchOnOff
  | SetAutoGuideSpeed
  | RunBootloaderMode
  | SetPolarScopeLedBrightness
  | InquireCountsPerRevolution
  | InquireTimerInterruptFreq
  | InquireGotoTargetPosition
  | InquireStepPeriod
  | InquirePosition
  | InquireStatus
  | InquireHighSpeedRatio
  | Inquire1XTrackingPeriod
  | InquireTeleAxisPosition
  | InquireMotorBoardVersion
  | ExtendedSetting
  | ExtendedInquire
deriving DecidableEq, Repr

/-- `Command.to_bytes`: the fixed one-byte wire code of each command
(ASCII of the byte literals in protocol.py). -/
def Command.to_bytes : Command → List Nat
  | .SetPosition => [69]
  | .InitializationDone => [70]
  | .SetMotionMode => [71]
  | .SetGotoTarget => [83]
  | .SetStepPeriod => [73]
  | .StartMotion => [74]
  | .StopMotion => [75]
  | .InstantStop => [76]
  | .SetAuxSwitchOnOff => [79]
  | .SetAutoGuideSpeed => [80]
  | .RunBootloaderMode => [81]
  | .SetPolarScopeLedBrightness => [86]
  | .InquireCountsPerRevolution => [97]
  | .InquireTimerInterruptFreq => [98]
  | .InquireGotoTargetPosition => [104]
  | .InquireStepPeriod => [105]
  | .InquirePosition => [106]
  | .InquireStatus => [102]
  | .InquireHighSpeedRatio => [103]
  | .Inquire1XTrackingPeriod => [68]
  | .InquireTeleAxisPosition => [100]
  | .InquireMotorBoardVersion => [101]
  | .ExtendedSetting => [87]
  | .ExtendedInquire => [113]

/-- The `ErrorCode` enum of device-reported fault codes. -/
inductive ErrorCode
  | UnknownCommand
  | CommandLengthError
  | MotorNotStopped
  | InvalidCharacter
  | NotInitialized
  | DriverSleeping
  | PecTrainingIsRunning
  | NoValidPECdata
deriving DecidableEq, Repr

/-- `ErrorCode.to_bytes`: b"0", b"1", b"2", b"3", b"4", b"5", b"7", b"8". -/
def ErrorCode.to_bytes : ErrorCode → List Nat
  | .UnknownCommand => [48]
  | .CommandLengthError => [49]
  | .MotorNotStopped => [50]
  | .InvalidCharacter => [51]
  | .NotInitialized => [52]
  | .DriverSleeping => [53]
  | .PecTrainingIsRunning => [55]
  | .NoValidPECdata => [56]

/-- The value-to-member lookup `ErrorCode(data)` performed by
`MotorControllerError.error_code`; `none` models the `ValueError` Python
raises when `data` is not one of the enum's byte values. -/
def ErrorCode.ofData : List Nat → Option ErrorCode
  | [48] => some .UnknownCommand
  | [49] => some .CommandLengthError
  | [50] => some .MotorNotStopped
  | [51] => some .InvalidCharacter
  | [52] => some .NotInitialized
  | [53] => some .DriverSleeping
  | [55] => some .PecTrainingIsRunning
  | [56] => some .NoValidPECdata
  | _ => none

/-- The `MessageHeader` enum: b":" = 58, b"=" = 61, b"!" = 33. -/
inductive MessageHeader
  | CommandHeader
  | ResponseHeader
  | ErrorMessageHeader
deriving DecidableEq, Repr

def MessageHeader.to_bytes : MessageHeader → List Nat
  | .CommandHeader => [58]
  | .ResponseHeader => [61]
  | .ErrorMessageHeader => [33]

/-- `MessageTerminator = b"\r"` (carriage return, 13). -/
def MessageTerminator : List Nat := [13]

/-- The 2-character groups `[input[i:i+2] for i in range(0, len(input), 2)]`:
consecutive pairs, left to right; an odd-length input leaves a final
1-character group. -/
def chunkPairs : List Nat → List (List Nat)
  | [] => []
  | [a] => [[a]]
  | a :: b :: rest => [a, b] :: chunkPairs rest

/-- `transcode(input)`: split into consecutive 2-character groups, reverse
the group order, concatenate (protocol.py lines 68-79). -/
def transcode (input : List Nat) : List Nat :=
  ((chunkPairs input).reverse).flatten

theorem chunkPairs_join (x : List Nat) : (chunkPairs x).flatten = x := by
  induction x using chunkPairs.induct with
  | case1 => rfl
  | case2 a => rfl
  | case3 a b rest ih => simp [chunkPairs, ih]

theorem chunkPairs_length_two (x : List Nat) (hx : x.length % 2 = 0) :
    ∀ c ∈ chunkPairs x, c.length = 2 := by
  induction x using chunkPairs.induct with
  | case1 => intro c hc; cases hc
  | case2 a => simp at hx
  | case3 a b rest ih =>
    intro c hc
    rw [chunkPairs] at hc
    rcases List.mem_cons.mp hc with hc | hc
    · simp [hc]
    · exact ih (by simp only [List.length_cons] at hx; omega) c hc

theorem chunkPairs_of_join (l : List (List Nat)) (hl : ∀ c ∈ l, c.length = 2) :
    chunkPairs l.flatten = l := by
  induction l with
  | nil => rfl
  | cons c rest ih =>
    have hc : c.length = 2 := hl c (by simp)
    match c, hc with
    | [a, b], _ =>
      have : ([a, b] :: rest).flatten = a :: b :: rest.flatten := by simp
      rw [this, chunkPairs, ih (fun d hd => hl d (by simp [hd]))]

theorem transcode_length (x : List Nat) : (transcode x).length = x.length := by
  have h1 : (transcode x).length = ((chunkPairs x).reverse.map List.length).sum := by
    simp [transcode, List.length_flatten]
  have h2 : x.length = ((chunkPairs x).map List.length).sum := by
    conv_lhs => rw [← chunkPairs_join x]
    simp [List.length_flatten]
  rw [h1, h2, List.map_reverse, List.sum_reverse]

/-- Even-length byte strings make `transcode` self-inverse: every group has
exactly 2 characters, so regrouping the transcoded string recovers the
reversed group list. -/
theorem transcode_transcode (x : List Nat) (hx : x.length % 2 = 0) :
    transcode (transcode x) = x := by
  have hrev : ∀ c ∈ (chunkPairs x).reverse, c.length = 2 := by
    intro c hc
    exact chunkPairs_length_two x hx c (List.mem_reverse.mp hc)
  calc transcode (transcode x)
      = (chunkPairs ((chunkPairs x).reverse.flatten)).reverse.flatten := rfl
    _ = ((chunkPairs x).reverse).reverse.flatten := by
        rw [chunkPairs_of_join _ hrev]
    _ = x := by rw [List.reverse_reverse, chunkPairs_join]

/-- A byte that is an ASCII hexadecimal digit: 0-9, A-F or a-f. -/
def isHexDigitByte (c : Nat) : Bool :=
  (48 ≤ c && c ≤ 57) || (65 ≤ c && c ≤ 70) || (97 ≤ c && c ≤ 102)

/-- Claim C2: for every even-length byte string of ASCII hex digits,
`transcode(transcode(x)) == x` — transcode is an involution. -/
theorem transcode_involution (x : List Nat) (hx : x.length % 2 = 0)
    (hhex : ∀ b ∈ x, isHexDigitByte b) : transcode (transcode x) = x :=
  transcode_transcode x hx

/-- Witness for C2 at the concrete hex string b"1234". -/
theorem transcode_involution_witness :
    transcode (transcode [49, 50, 51, 52]) = [49, 50, 51, 52] :=
  transcode_involution [49, 50, 51, 52] (by decide) (by decide)

/-! ## DataSegment and message framing (protocol.py lines 82-159) -/

/-- `DataSegment`: the data segment of a controller message, stored in
document order (`data`). -/
structure DataSegment where
  data : List Nat
deriving DecidableEq, Repr

/-- `DataSegment.to_bytes`: the transcoded (wire order) byte representation. -/
def DataSegment.to_bytes (s : DataSegment) : List Nat := transcode s.data

/-- One ASCII hex digit's value, as `int(-, 16)` reads it; `none` models the
`ValueError` for a non-hex character. -/
def parseHexDigit (c : Nat) : Option Nat :=
  if 48 ≤ c ∧ c ≤ 57 then some (c - 48)
  else if 65 ≤ c ∧ c ≤ 70 then some (c - 55)
  else if 97 ≤ c ∧ c ≤ 102 then some (c - 87)
  else none

/-- Base-16 left-to-right accumulation of a digit string onto `acc`. -/
def hexParseFrom : Nat → List Nat → Option Nat
  | acc, [] => some acc
  | acc, c :: rest =>
    match parseHexDigit c with
    | some d => hexParseFrom (16 * acc + d) rest
    | none => none

/-- `DataSegment.to_int`: `int(data.decode("ascii"), 16)` on a plain digit
string; `none` models the `ValueError` on an empty or non-hex payload. -/
def DataSegment.to_int (s : DataSegment) : Option Nat :=
  if s.data = [] then none else hexParseFrom 0 s.data

/-- The ASCII code of hex digit `d` as `"%X"` renders it (uppercase). -/
def hexDigitChar (d : Nat) : Nat := if d < 10 then 48 + d else 55 + d

/-- The uppercase hex digit string of `v`, most significant first, as
`"%X" % v` renders it (no padding). -/
def natToHexDigits (v : Nat) : List Nat :=
  if v < 16 then [hexDigitChar v]
  else natToHexDigits (v / 16) ++ [hexDigitChar (v % 16)]
termination_by v
decreasing_by exact Nat.div_lt_self (by omega) (by omega)

/-- `DataSegment.from_int(value)`: `"%06X" % value` — uppercase hex,
zero-padded on the left to a minimum width of 6 (wider values keep all their
digits). -/
def DataSegment.from_int (value : Nat) : DataSegment :=
  ⟨List.replicate (6 - (natToHexDigits value).length) 48 ++ natToHexDigits value⟩

/-- `DataSegment.from_bytes(raw_data)`: strip the 1-byte header and the
1-byte terminator (`raw_data[1:-1]`), transcode the remainder. -/
def DataSegment.from_bytes (raw_data : List Nat) : DataSegment :=
  ⟨transcode ((raw_data.drop 1).dropLast)⟩

/-- `CommandMessage`: command word, channel word and data payload. -/
structure CommandMessage where
  command : Command
  channel : Channel
  payload : DataSegment
deriving DecidableEq, Repr

/-- `CommandMessage.to_bytes`: b":" + command + channel + transcoded payload
+ b"\r". -/
def CommandMessage.to_bytes (m : CommandMessage) : List Nat :=
  MessageHeader.CommandHeader.to_bytes ++ m.command.to_bytes ++
    m.channel.to_bytes ++ m.payload.to_bytes ++ MessageTerminator

/-- `MotorControllerMessage`: a normal controller response; serializes as
b"=" + transcoded payload + b"\r". -/
structure MotorControllerMessage where
  payload : DataSegment
deriving DecidableEq, Repr

def MotorControllerMessage.to_bytes (m : MotorControllerMessage) : List Nat :=
  MessageHeader.ResponseHeader.to_bytes ++ m.payload.to_bytes ++ MessageTerminator

/-! ## Hex formatting and parsing lemmas -/

theorem parseHexDigit_hexDigitChar : ∀ d : Nat, d < 16 → parseHexDigit (hexDigitChar d) = some d := by
  decide

theorem hexParseFrom_append (l₁ l₂ : List Nat) :
    ∀ acc, hexParseFrom acc (l₁ ++ l₂) =
      (hexParseFrom acc l₁).bind (fun a => hexParseFrom a l₂) := by
  induction l₁ with
  | nil => intro acc; simp [hexParseFrom]
  | cons c rest ih =>
    intro acc
    simp only [List.cons_append, hexParseFrom]
    cases hp : parseHexDigit c <;> simp [hp, ih]

theorem natToHexDigits_ne_nil (v : Nat) : natToHexDigits v ≠ [] := by
  rw [natToHexDigits]; split <;> simp

theorem hexParseFrom_natToHexDigits (v : Nat) :
    ∀ acc, hexParseFrom acc (natToHexDigits v) =
      some (acc * 16 ^ (natToHexDigits v).length + v) := by
  induction v using natToHexDigits.induct with
  | case1 v h =>
    intro acc
    rw [natToHexDigits, if_pos h]
    simp [hexParseFrom, parseHexDigit_hexDigitChar v h]
    omega
  | case2 v h ih =>
    intro acc
    rw [natToHexDigits, if_neg h]
    rw [hexParseFrom_append]
    rw [ih acc]
    have hlt : v % 16 < 16 := Nat.mod_lt _ (by omega)
    simp only [Option.some_bind, hexParseFrom, parseHexDigit_hexDigitChar _ hlt,
      List.length_append, List.length_cons, List.length_nil]
    apply congrArg
    have h1 : 16 * (acc * 16 ^ (natToHexDigits (v / 16)).length) =
        acc * 16 ^ ((natToHexDigits (v / 16)).length + 1) := by
      rw [pow_succ]; ring
    have h2 : 16 * (v / 16) + v % 16 = v := Nat.div_add_mod v 16
    calc 16 * (acc * 16 ^ (natToHexDigits (v / 16)).length + v / 16) + v % 16
        = 16 * (acc * 16 ^ (natToHexDigits (v / 16)).length) +
            (16 * (v / 16) + v % 16) := by ring
      _ = acc * 16 ^ ((natToHexDigits (v / 16)).length + 1) + v := by rw [h1, h2]
      _ = acc * 16 ^ ((natToHexDigits (v / 16)).length + (0 + 1)) + v := by
            rw [Nat.zero_add]

theorem hexParseFrom_replicate_zero (l : List Nat) :
    ∀ k, hexParseFrom 0 (List.replicate k 48 ++ l) = hexParseFrom 0 l := by
  intro k
  induction k with
  | zero => simp
  | succ n ih =>
    have h48 : parseHexDigit 48 = some 0 := by decide
    simp only [List.replicate_succ, List.cons_append, hexParseFrom, h48]
    simpa using ih

/-- Parsing back what `from_int` formatted recovers the value, for every
natural number value. -/
theorem to_int_from_int (v : Nat) : (DataSegment.from_int v).to_int = some v := by
  unfold DataSegment.to_int DataSegment.from_int
  have hne : List.replicate (6 - (natToHexDigits v).length) 48 ++ natToHexDigits v ≠ [] := by
    simp [natToHexDigits_ne_nil]
  rw [if_neg hne]
  rw [hexParseFrom_replicate_zero, hexParseFrom_natToHexDigits v 0]
  simp

theorem natToHexDigits_length_le (v : Nat) :
    ∀ k, 1 ≤ k → v < 16 ^ k → (natToHexDigits v).length ≤ k := by
  induction v using natToHexDigits.induct with
  | case1 v h =>
    intro k hk _
    rw [natToHexDigits, if_pos h]
    simpa using hk
  | case2 v h ih =>
    intro k hk hvk
    rw [natToHexDigits, if_neg h]
    rcases k with _ | _ | k
    · omega
    · exfalso; rw [pow_one] at hvk; omega
    · have hdiv : v / 16 < 16 ^ (k + 1) := by
        rw [Nat.div_lt_iff_lt_mul (by norm_num : 0 < 16)]
        calc v < 16 ^ (k + 2) := hvk
          _ = 16 ^ (k + 1) * 16 := by rw [pow_succ]
      have hlen := ih (k + 1) (by omega) hdiv
      simp only [List.length_append, List.length_cons, List.length_nil]
      omega

theorem natToHexDigits_length_gt (v : Nat) :
    ∀ k, 16 ^ k ≤ v → k + 1 ≤ (natToHexDigits v).length := by
  induction v using natToHexDigits.induct with
  | case1 v h =>
    intro k hk
    rw [natToHexDigits, if_pos h]
    rcases k with _ | k
    · simp
    · exfalso
      have h16 : (16 : ℕ) ≤ 16 ^ (k + 1) := by
        calc (16 : ℕ) = 16 ^ 1 := (pow_one 16).symm
          _ ≤ 16 ^ (k + 1) := Nat.pow_le_pow_right (by norm_num) (by omega)
      omega
  | case2 v h ih =>
    intro k hk
    rw [natToHexDigits, if_neg h]
    simp only [List.length_append, List.length_cons, List.length_nil]
    rcases k with _ | k
    · omega
    · have hdiv : 16 ^ k ≤ v / 16 := by
        rw [Nat.le_div_iff_mul_le (by norm_num : 0 < 16)]
        calc 16 ^ k * 16 = 16 ^ (k + 1) := (pow_succ 16 k).symm
          _ ≤ v := hk
      have hlen := ih k hdiv
      omega

/-- A byte that is an uppercase ASCII hex digit, as `"%06X"` emits. -/
def isUpperHexDigitByte (c : Nat) : Bool :=
  (48 ≤ c && c ≤ 57) || (65 ≤ c && c ≤ 70)

theorem hexDigitChar_upper : ∀ d : Nat, d < 16 → isUpperHexDigitByte (hexDigitChar d) = true := by
  decide

theorem natToHexDigits_upper (v : Nat) : ∀ c ∈ natToHexDigits v, isUpperHexDigitByte c := by
  induction v using natToHexDigits.induct with
  | case1 v h =>
    rw [natToHexDigits, if_pos h]
    intro c hc
    simp only [List.mem_singleton] at hc
    subst hc
    exact hexDigitChar_upper v h
  | case2 v h ih =>
    rw [natToHexDigits, if_neg h]
    intro c hc
    rcases List.mem_append.mp hc with hc | hc
    · exact ih c hc
    · simp only [List.mem_singleton] at hc
      subst hc
      exact hexDigitChar_upper _ (Nat.mod_lt _ (by omega))

theorem from_int_data_length (v : Nat) (hv : v ≤ 0xFFFFFF) :
    (DataSegment.from_int v).data.length = 6 := by
  have h16 : (16 : ℕ) ^ 6 = 16777216 := by norm_num
  have hlen := natToHexDigits_length_le v 6 (by omega) (by omega)
  simp only [DataSegment.from_int, List.length_append, List.length_replicate]
  omega

/-- Claim C10: `DataSegment.from_int` performs no range validation — for
`v ≤ 0xFFFFFF` it yields exactly 6 uppercase zero-padded hex digits, and for
`v > 0xFFFFFF` it silently yields a payload longer than 6 digits (the
function is total, so it never raises). -/
theorem from_int_no_validation :
    (∀ v : Nat, v ≤ 0xFFFFFF →
        (DataSegment.from_int v).data.length = 6 ∧
        ∀ c ∈ (DataSegment.from_int v).data, isUpperHexDigitByte c) ∧
    (∀ v : Nat, 0xFFFFFF < v → 6 < (DataSegment.from_int v).data.length) := by
  constructor
  · intro v hv
    refine ⟨from_int_data_length v hv, ?_⟩
    intro c hc
    simp only [DataSegment.from_int, List.mem_append] at hc
    rcases hc with hc | hc
    · have : c = 48 := (List.eq_of_mem_replicate hc)
      subst this
      decide
    · exact natToHexDigits_upper v c hc
  · intro v hv
    have h16 : (16 : ℕ) ^ 6 = 16777216 := by norm_num
    have hlen := natToHexDigits_length_gt v 6 (by omega)
    simp only [DataSegment.from_int, List.length_append, List.length_replicate]
    omega

/-- Claim C3: for every `v` in [0, 0xFFFFFF], `from_int(v)` serialized to
its transcoded wire bytes, framed with the response header and terminator,
parsed back via `from_bytes`, and read with `to_int` yields exactly `v`. -/
theorem dataSegment_roundtrip (v : Nat) (hv : v ≤ 0xFFFFFF) :
    (DataSegment.from_bytes
        ((MotorControllerMessage.mk (DataSegment.from_int v)).to_bytes)).to_int = some v := by
  have hstrip : ((MotorControllerMessage.mk (DataSegment.from_int v)).to_bytes.drop 1).dropLast
      = (DataSegment.from_int v).to_bytes := by
    show ((DataSegment.from_int v).to_bytes ++ [13]).dropLast = (DataSegment.from_int v).to_bytes
    rw [List.dropLast_concat]
  have heven : (DataSegment.from_int v).data.length % 2 = 0 := by
    rw [from_int_data_length v hv]
  rw [DataSegment.from_bytes, hstrip, DataSegment.to_bytes,
    show (⟨transcode (transcode (DataSegment.from_int v).data)⟩ : DataSegment)
        = DataSegment.from_int v by rw [transcode_transcode _ heven]]
  exact to_int_from_int v

/-- Witness for C3 at v = 0x123456. -/
theorem dataSegment_roundtrip_witness :
    (DataSegment.from_bytes
        ((MotorControllerMessage.mk (DataSegment.from_int 0x123456)).to_bytes)).to_int
      = some 0x123456 :=
  dataSegment_roundtrip 0x123456 (by norm_num)

/-! ## Response parsing (protocol.py lines 183-226) -/

/-- Outcome of `CommunicationsModule._parse_binary_response`: a returned
normal message, a raised `MotorControllerError` carrying its payload
segment, or the raised `TypeError("Invalid message ...")`. -/
inductive ParseResult
  | success (msg : MotorControllerMessage)
  | controllerError (payload : DataSegment)
  | invalidMessage
deriving DecidableEq, Repr

/-- `CommunicationsModule._parse_binary_response(response)`: compare
`response[:1]` against the error header, then the response header; any
other (or empty) leading byte raises `TypeError`. -/
def _parse_binary_response (response : List Nat) : ParseResult :=
  if response.take 1 = MessageHeader.ErrorMessageHeader.to_bytes then
    .controllerError (DataSegment.from_bytes response)
  else if response.take 1 = MessageHeader.ResponseHeader.to_bytes then
    .success (MotorControllerMessage.mk (DataSegment.from_bytes response))
  else .invalidMessage

/-- The caller-visible classification of a raw response: parse it and, for
an error response, resolve the code as `MotorControllerError.error_code`
does (`ErrorCode.ofData`); a raised exception that carries no recognized
controller code (`TypeError`, `ValueError`) is the spec's ProtocolError. -/
inductive ResponseOutcome
  | success (payload : List Nat)
  | controllerError (code : ErrorCode)
  | protocolError
deriving DecidableEq, Repr

def classify_response (response : List Nat) : ResponseOutcome :=
  match _parse_binary_response response with
  | .success msg => .success msg.payload.data
  | .controllerError seg =>
    match ErrorCode.ofData seg.data with
    | some code => .controllerError code
    | none => .protocolError
  | .invalidMessage => .protocolError

/-- Counterexample to claim C1 as stated: the response b"=123\r" has an
odd-length (3-character) payload, yet it is not a ProtocolError — the code
never checks payload parity; `transcode` keeps the unpaired final
character as its own group and the message parses as a success. -/
theorem odd_payload_not_protocolError :
    classify_response [61, 49, 50, 51, 13] = ResponseOutcome.success [51, 49, 50] ∧
    classify_response [61, 49, 50, 51, 13] ≠ ResponseOutcome.protocolError := by
  decide

/-- Claim C1 amended: a raw response is classified by its first byte —
b"=" yields a success whose payload is the transcoded remainder; b"!"
yields a controller error of the recognized code, and an unrecognized code
is a ProtocolError (not a ControllerError); any other leading byte is a
ProtocolError. (A payload of odd length is not rejected: the unpaired
final character forms its own transcode group and parsing proceeds.) -/
theorem parse_response_classification (response : List Nat) :
    (response.take 1 = [61] →
      classify_response response = .success (transcode ((response.drop 1).dropLast))) ∧
    (response.take 1 = [33] →
      ∀ code, ErrorCode.ofData (transcode ((response.drop 1).dropLast)) = some code →
        classify_response response = .controllerError code) ∧
    (response.take 1 = [33] →
      ErrorCode.ofData (transcode ((response.drop 1).dropLast)) = none →
        classify_response response = .protocolError) ∧
    (response.take 1 ≠ [61] → response.take 1 ≠ [33] →
      classify_response response = .protocolError) := by
  refine ⟨?_, ?_, ?_, ?_⟩
  · intro h61
    simp [classify_response, _parse_binary_response, MessageHeader.to_bytes, h61,
      DataSegment.from_bytes]
  · intro h33 code hcode
    rw [List.drop_one] at hcode
    simp [classify_response, _parse_binary_response, MessageHeader.to_bytes, h33,
      DataSegment.from_bytes, hcode]
  · intro h33 hnone
    rw [List.drop_one] at hnone
    simp [classify_response, _parse_binary_response, MessageHeader.to_bytes, h33,
      DataSegment.from_bytes, hnone]
  · intro h61 h33
    simp [classify_response, _parse_binary_response, MessageHeader.to_bytes, h61, h33]

/-! ## Set-position serialization (motorizedbase.py lines 22-24, 102-105) -/

/-- `MotorPositionOffset = 0x800000`: added to every outgoing position
count and subtracted from every received one. -/
def MotorPositionOffset : Nat := 0x800000

/-- The command message `Motor.set_position_degrees` sends for a
nonnegative logical position count: the count plus the fixed wire offset,
formatted with `DataSegment.from_int`. -/
def set_position_message (channel : Channel) (logical_count : Nat) : CommandMessage :=
  CommandMessage.mk Command.SetPosition channel
    (DataSegment.from_int (logical_count + MotorPositionOffset))

theorem natToHexDigits_offset : natToHexDigits 0x800000 = [56, 48, 48, 48, 48, 48] := by
  simp [natToHexDigits, hexDigitChar]

theorem from_int_offset : DataSegment.from_int 0x800000 = ⟨[56, 48, 48, 48, 48, 48]⟩ := by
  simp [DataSegment.from_int, natToHexDigits_offset]

/-- Claim C7: serializing a set-position command on channel 1 with logical
count 0 — count plus the 0x800000 offset formatted as 6 hex digits,
transcoded, framed with b":" and b"\r" — produces exactly b":E1000080\r". -/
theorem set_position_zero_bytes :
    (set_position_message Channel.Channel1 0).to_bytes
      = [58, 69, 49, 48, 48, 48, 48, 56, 48, 13] := by
  have h : 0 + MotorPositionOffset = 0x800000 := by norm_num [MotorPositionOffset]
  simp only [set_position_message, h, from_int_offset]
  decide

/-! ## Motor arithmetic (motorizedbase.py lines 62-197)

Python float arithmetic is modelled exactly over `ℚ`; the concrete
calibration values of the claims (small integers) are float-exact. -/

/-- Python `int(x)` applied to a nonintegral number: truncation toward zero. -/
def pythonInt (q : ℚ) : ℤ := if 0 ≤ q then ⌊q⌋ else -⌊-q⌋

theorem pythonInt_intCast (p : ℤ) : pythonInt (p : ℚ) = p := by
  unfold pythonInt
  split_ifs with h0
  · exact Int.floor_intCast p
  · rw [← Int.cast_neg, Int.floor_intCast]; omega

/-- `Motor.get_degrees_per_count`: `360.0 / counts_per_revolution`. -/
def get_degrees_per_count (counts_per_revolution : ℕ) : ℚ :=
  360 / counts_per_revolution

/-- `Motor.degrees_to_count`: `int(degrees / degrees_per_count)`. -/
def degrees_to_count (counts_per_revolution : ℕ) (degrees : ℚ) : ℤ :=
  pythonInt (degrees / get_degrees_per_count counts_per_revolution)

/-- `Motor.count_to_degrees`: reduce the count modulo one revolution
(Python `%` is floor-mod on ints, `Int.emod`), then convert to degrees. -/
def count_to_degrees (counts_per_revolution : ℕ) (count : ℤ) : ℚ :=
  ((count % (counts_per_revolution : ℤ) : ℤ) : ℚ) *
    get_degrees_per_count counts_per_revolution

/-- The two local speed-validation exceptions of motorizedbase.py. -/
inductive SpeedError
  | MaximumSpeedExceeded
  | MinimumSpeedExceeded
deriving DecidableEq, Repr

/-- The preset value `Motor.t1_preset_for_speed` computes before its bound
checks: `int(timer_interrupt_frequency / abs(degrees_per_second /
degrees_per_count))`. -/
def raw_t1_preset (counts_per_revolution timer_interrupt_frequency : ℕ)
    (degrees_per_second : ℚ) : ℤ :=
  pythonInt ((timer_interrupt_frequency : ℚ) /
    |degrees_per_second / get_degrees_per_count counts_per_revolution|)

/-- `Motor.t1_preset_for_speed` (lines 167-176): `MaximumSpeedExceeded`
when the preset is below 10, `MinimumSpeedExceeded` when it exceeds
0xFFFFFF, otherwise the preset. -/
def t1_preset_for_speed (counts_per_revolution timer_interrupt_frequency : ℕ)
    (degrees_per_second : ℚ) : Except SpeedError ℤ :=
  if raw_t1_preset counts_per_revolution timer_interrupt_frequency degrees_per_second < 10 then
    .error .MaximumSpeedExceeded
  else if 0xFFFFFF <
      raw_t1_preset counts_per_revolution timer_interrupt_frequency degrees_per_second then
    .error .MinimumSpeedExceeded
  else .ok (raw_t1_preset counts_per_revolution timer_interrupt_frequency degrees_per_second)

theorem raw_t1_preset_10 : raw_t1_preset 200 20000 3600 = 10 := by
  have habs : |(3600 : ℚ) / get_degrees_per_count 200| = 2000 := by
    rw [get_degrees_per_count]
    rw [abs_of_nonneg (by norm_num)]
    norm_num
  have hdiv : ((20000 : ℕ) : ℚ) / 2000 = ((10 : ℤ) : ℚ) := by norm_num
  rw [raw_t1_preset, habs, hdiv, pythonInt_intCast]

theorem raw_t1_preset_9 : raw_t1_preset 200 20000 4000 = 9 := by
  have habs : |(4000 : ℚ) / get_degrees_per_count 200| = 20000 / 9 := by
    rw [get_degrees_per_count]
    rw [abs_of_nonneg (by norm_num)]
    norm_num
  have hdiv : ((20000 : ℕ) : ℚ) / (20000 / 9) = ((9 : ℤ) : ℚ) := by norm_num
  rw [raw_t1_preset, habs, hdiv, pythonInt_intCast]

theorem raw_t1_preset_max : raw_t1_preset 200 20000 (36000 / 0xFFFFFF) = 0xFFFFFF := by
  have habs : |(36000 / 0xFFFFFF : ℚ) / get_degrees_per_count 200| = 20000 / 0xFFFFFF := by
    rw [get_degrees_per_count]
    rw [abs_of_nonneg (by norm_num)]
    norm_num
  have hdiv : ((20000 : ℕ) : ℚ) / (20000 / 0xFFFFFF) = ((0xFFFFFF : ℤ) : ℚ) := by norm_num
  rw [raw_t1_preset, habs, hdiv, pythonInt_intCast]

theorem raw_t1_preset_min : raw_t1_preset 200 20000 (36000 / 0x1000000) = 0x1000000 := by
  have habs : |(36000 / 0x1000000 : ℚ) / get_degrees_per_count 200| = 20000 / 0x1000000 := by
    rw [get_degrees_per_count]
    rw [abs_of_nonneg (by norm_num)]
    norm_num
  have hdiv : ((20000 : ℕ) : ℚ) / (20000 / 0x1000000) = ((0x1000000 : ℤ) : ℚ) := by norm_num
  rw [raw_t1_preset, habs, hdiv, pythonInt_intCast]

/-- Claim C4: the preset bound checks — `MaximumSpeedExceeded` exactly when
the preset is below 10, `MinimumSpeedExceeded` exactly when it exceeds
0xFFFFFF; with `timer_interrupt_frequency = 20000` and
`counts_per_revolution = 200`, preset 10 succeeds, preset 9 raises
`MaximumSpeedExceeded`, preset 0xFFFFFF succeeds and preset 0x1000000
raises `MinimumSpeedExceeded`. -/
theorem t1_preset_bounds :
    (∀ (cpr tif : ℕ) (dps : ℚ),
      (t1_preset_for_speed cpr tif dps = .error .MaximumSpeedExceeded ↔
        raw_t1_preset cpr tif dps < 10) ∧
      (t1_preset_for_speed cpr tif dps = .error .MinimumSpeedExceeded ↔
        0xFFFFFF < raw_t1_preset cpr tif dps)) ∧
    t1_preset_for_speed 200 20000 3600 = .ok 10 ∧
    t1_preset_for_speed 200 20000 4000 = .error .MaximumSpeedExceeded ∧
    t1_preset_for_speed 200 20000 (36000 / 0xFFFFFF) = .ok 0xFFFFFF ∧
    t1_preset_for_speed 200 20000 (36000 / 0x1000000) = .error .MinimumSpeedExceeded := by
  refine ⟨?_, ?_, ?_, ?_, ?_⟩
  · intro cpr tif dps
    unfold t1_preset_for_speed
    split_ifs with h1 h2 <;> refine ⟨⟨fun h => ?_, fun h => ?_⟩, ⟨fun h => ?_, fun h => ?_⟩⟩ <;>
      first
        | omega
        | rfl
        | (exfalso; simp at h)
        | (exfalso; exact absurd h (by omega))
  · unfold t1_preset_for_speed
    rw [raw_t1_preset_10]
    norm_num
  · unfold t1_preset_for_speed
    rw [raw_t1_preset_9]
    norm_num
  · unfold t1_preset_for_speed
    rw [raw_t1_preset_max]
    norm_num
  · unfold t1_preset_for_speed
    rw [raw_t1_preset_min]
    norm_num

/-! ## Degree/count round trip (motorizedbase.py lines 81-89) -/

theorem mul_degrees_per_count (cpr : ℕ) (hc : 0 < cpr) :
    (cpr : ℚ) * get_degrees_per_count cpr = 360 := by
  have hne : (cpr : ℚ) ≠ 0 := by positivity
  rw [get_degrees_per_count, mul_comm, div_mul_cancel₀ _ hne]

/-- Claim C9: for every d in [0, 360), `count_to_degrees` of
`degrees_to_count(d)` is within one count's worth of degrees
(360 / counts_per_revolution) of d, and `count_to_degrees` reduces every
integer count to a canonical angle in [0, 360). -/
theorem count_degrees_roundtrip (cpr : ℕ) (hc : 0 < cpr) (d : ℚ)
    (h0 : 0 ≤ d) (h1 : d < 360) :
    |count_to_degrees cpr (degrees_to_count cpr d) - d| ≤ 360 / cpr ∧
    ∀ c : ℤ, 0 ≤ count_to_degrees cpr c ∧ count_to_degrees cpr c < 360 := by
  have hcq : (0 : ℚ) < cpr := by exact_mod_cast hc
  have hdpc : (0 : ℚ) < get_degrees_per_count cpr := by
    rw [get_degrees_per_count]; positivity
  have hcpr360 : (cpr : ℚ) * get_degrees_per_count cpr = 360 := mul_degrees_per_count cpr hc
  constructor
  · set x := d / get_degrees_per_count cpr with hx
    have hx0 : 0 ≤ x := div_nonneg h0 hdpc.le
    have hxlt : x < cpr := by
      rw [hx, div_lt_iff hdpc]
      rw [← hcpr360] at h1
      exact h1
    have hcount : degrees_to_count cpr d = ⌊x⌋ := by
      rw [degrees_to_count, pythonInt, if_pos hx0]
    have hfl0 : (0 : ℤ) ≤ ⌊x⌋ := Int.floor_nonneg.mpr hx0
    have hflc : ⌊x⌋ < (cpr : ℤ) := by
      rw [Int.floor_lt]
      exact_mod_cast hxlt
    have hmod : ⌊x⌋ % (cpr : ℤ) = ⌊x⌋ := Int.emod_eq_of_lt hfl0 hflc
    rw [hcount, count_to_degrees, hmod]
    have hd : d = x * get_degrees_per_count cpr := by
      rw [hx, div_mul_cancel₀ _ hdpc.ne']
    rw [hd, ← sub_mul, abs_mul, abs_of_pos hdpc, abs_sub_comm]
    have hfloor_le : (⌊x⌋ : ℚ) ≤ x := Int.floor_le x
    have hfloor_gt : x - 1 < (⌊x⌋ : ℚ) := Int.sub_one_lt_floor x
    have habs : |x - (⌊x⌋ : ℚ)| = x - (⌊x⌋ : ℚ) := abs_of_nonneg (by linarith)
    rw [habs]
    calc (x - (⌊x⌋ : ℚ)) * get_degrees_per_count cpr
        ≤ 1 * get_degrees_per_count cpr := by
          apply mul_le_mul_of_nonneg_right (by linarith) hdpc.le
      _ = get_degrees_per_count cpr := one_mul _
      _ = 360 / cpr := rfl
  · intro c
    have hne : ((cpr : ℤ)) ≠ 0 := by exact_mod_cast hc.ne'
    have hm0 : (0 : ℤ) ≤ c % (cpr : ℤ) := Int.emod_nonneg c hne
    have hmlt : c % (cpr : ℤ) < (cpr : ℤ) := Int.emod_lt_of_pos c (by exact_mod_cast hc)
    constructor
    · apply mul_nonneg _ hdpc.le
      exact_mod_cast hm0
    · calc ((c % (cpr : ℤ) : ℤ) : ℚ) * get_degrees_per_count cpr
          < (cpr : ℚ) * get_degrees_per_count cpr := by
            apply mul_lt_mul_of_pos_right _ hdpc
            exact_mod_cast hmlt
        _ = 360 := hcpr360

/-- Witness for C9 with `counts_per_revolution = 200` at d = 0 and c = 5. -/
theorem count_degrees_roundtrip_witness :
    |count_to_degrees 200 (degrees_to_count 200 0) - 0| ≤ 360 / 200 ∧
    (0 ≤ count_to_degrees 200 5 ∧ count_to_degrees 200 5 < 360) := by
  have h := count_degrees_roundtrip 200 (by norm_num) 0 le_rfl (by norm_num)
  exact ⟨h.1, h.2 5⟩

/-! ## Tracking operations as command traces (motorizedbase.py lines 131-197)

Each operation is modelled as the sequence of command messages it sends
over the transport, paired with the speed-validation exception it raises,
if any; an exception aborts the rest of the sequence. Responses to these
commands are ignored by the source, so the transport is left abstract. -/

/-- `MotionDirection` (motorizedbase.py lines 40-43). -/
inductive MotionDirection
  | Clockwise
  | CounterClockwise
deriving DecidableEq, Repr

/-- `MotionSpeed` (motorizedbase.py lines 45-48). -/
inductive MotionSpeed
  | Slow
  | Medium
  | Fast
deriving DecidableEq, Repr

/-- The message `Motor.stop_motion` sends (empty payload). -/
def stop_motion_message (channel : Channel) : CommandMessage :=
  CommandMessage.mk Command.StopMotion channel ⟨[]⟩

/-- The message `Motor.start_motion` sends (empty payload). -/
def start_motion_message (channel : Channel) : CommandMessage :=
  CommandMessage.mk Command.StartMotion channel ⟨[]⟩

/-- The messages `Motor.set_tracking_mode` sends: stop motion first, then
the motion-mode command whose payload is the speed byte (b"1", or b"3"
when fast) followed by the direction byte (b"0", or b"1" when
counterclockwise). -/
def set_tracking_mode_messages (channel : Channel) (speed : MotionSpeed)
    (direction : MotionDirection) : List CommandMessage :=
  [stop_motion_message channel,
   CommandMessage.mk Command.SetMotionMode channel
     ⟨[if speed = MotionSpeed.Fast then 51 else 49,
       if direction = MotionDirection.CounterClockwise then 49 else 48]⟩]

/-- `Motor.set_tracking_speed` as a trace: compute the preset (possibly
raising), then send the step-period command. -/
def set_tracking_speed_trace (cpr tif : ℕ) (channel : Channel) (dps : ℚ) :
    List CommandMessage × Option SpeedError :=
  match t1_preset_for_speed cpr tif dps with
  | .error e => ([], some e)
  | .ok p =>
    ([CommandMessage.mk Command.SetStepPeriod channel (DataSegment.from_int p.toNat)], none)

/-- The direction `Motor.track` derives from the sign of the speed. -/
def track_direction (dps : ℚ) : MotionDirection :=
  if 0 ≤ dps then MotionDirection.Clockwise else MotionDirection.CounterClockwise

/-- `Motor.track` as a trace: set tracking mode (direction from the sign
of the speed, default slow class), set tracking speed at the absolute
value, start motion. -/
def track_trace (cpr tif : ℕ) (channel : Channel) (dps : ℚ) :
    List CommandMessage × Option SpeedError :=
  match set_tracking_speed_trace cpr tif channel |dps| with
  | (messages, some e) =>
    (set_tracking_mode_messages channel MotionSpeed.Slow (track_direction dps) ++ messages,
     some e)
  | (messages, none) =>
    (set_tracking_mode_messages channel MotionSpeed.Slow (track_direction dps) ++ messages ++
      [start_motion_message channel], none)

theorem set_tracking_speed_trace_error (cpr tif : ℕ) (channel : Channel) (dps : ℚ)
    (e : SpeedError) (he : t1_preset_for_speed cpr tif dps = .error e) :
    set_tracking_speed_trace cpr tif channel dps = ([], some e) := by
  unfold set_tracking_speed_trace
  rw [he]

theorem track_trace_error (cpr tif : ℕ) (channel : Channel) (dps : ℚ)
    (e : SpeedError) (he : t1_preset_for_speed cpr tif |dps| = .error e) :
    track_trace cpr tif channel dps =
      (set_tracking_mode_messages channel MotionSpeed.Slow (track_direction dps), some e) := by
  unfold track_trace
  rw [set_tracking_speed_trace_error cpr tif channel _ e he]
  simp

theorem t1_error_9 : t1_preset_for_speed 200 20000 4000 = .error .MaximumSpeedExceeded := by
  unfold t1_preset_for_speed
  rw [raw_t1_preset_9]
  norm_num

/-- Counterexample to claim C5 as stated: `Motor.track` with an
unrepresentable speed (4000 deg/s gives preset 9) raises
`MaximumSpeedExceeded`, but two commands — stop-motion and
set-motion-mode — have already been sent when it does. -/
theorem track_sends_before_validation :
    (track_trace 200 20000 Channel.Channel1 4000).2 = some SpeedError.MaximumSpeedExceeded ∧
    (track_trace 200 20000 Channel.Channel1 4000).1 ≠ [] := by
  have habs : |(4000 : ℚ)| = 4000 := abs_of_nonneg (by norm_num)
  have he : t1_preset_for_speed 200 20000 |(4000 : ℚ)| = .error .MaximumSpeedExceeded := by
    rw [habs]; exact t1_error_9
  rw [track_trace_error 200 20000 Channel.Channel1 4000 _ he]
  exact ⟨rfl, by simp [set_tracking_mode_messages]⟩

/-- Claim C5 amended: when the requested tracking speed cannot be
represented, `set_tracking_speed` raises before sending anything, but
`track` first sends the stop-motion and set-motion-mode commands and only
then validates — the error precedes the step-period and start-motion
commands, not every command. -/
theorem speed_validation_before_send (cpr tif : ℕ) (channel : Channel) (dps : ℚ) :
    (∀ e, t1_preset_for_speed cpr tif dps = .error e →
      set_tracking_speed_trace cpr tif channel dps = ([], some e)) ∧
    (∀ e, t1_preset_for_speed cpr tif |dps| = .error e →
      track_trace cpr tif channel dps =
        (set_tracking_mode_messages channel MotionSpeed.Slow (track_direction dps), some e)) := by
  constructor
  · intro e he
    exact set_tracking_speed_trace_error cpr tif channel dps e he
  · intro e he
    exact track_trace_error cpr tif channel dps e he

/-! ## Transport retry (udp.py lines 10-32, 60-76) -/

/-- Outcome of one `_make_call` attempt: a returned response, the raised
`SynscanSocketTimeoutError`, or any other exception. -/
inductive CallOutcome (α : Type)
  | ok (a : α)
  | timeout
  | otherError
deriving DecidableEq, Repr

/-- Result of the `retry`-wrapped call: a returned value, the re-raised
timeout after exhausting the budget, another exception propagated at once,
or the implicit `None` return when `max_retries = 0` (the while loop never
runs). Each constructor records how many attempts (sends) were made. -/
inductive RetryResult (α : Type)
  | value (a : α) (attempts : ℕ)
  | raisedTimeout (attempts : ℕ)
  | raisedOther (attempts : ℕ)
  | returnedNone (attempts : ℕ)
deriving DecidableEq, Repr

/-- The loop of `retry.func_with_retries` (udp.py lines 13-21):
`attempted` attempts made so far, `remaining = max_retries - _retries`
iterations left. Only the timeout exception is caught; it is re-raised
when `_retries >= max_retries`. `f` gives each successive attempt's
outcome; one attempt is one `sendto`. -/
def retryGo {α : Type} (f : ℕ → CallOutcome α) : ℕ → ℕ → RetryResult α
  | attempted, 0 => .returnedNone attempted
  | attempted, remaining + 1 =>
    match f attempted with
    | .ok a => .value a (attempted + 1)
    | .otherError => .raisedOther (attempted + 1)
    | .timeout =>
      if remaining = 0 then .raisedTimeout (attempted + 1)
      else retryGo f (attempted + 1) remaining

/-- `retry(SynscanSocketTimeoutError)` around `_make_call`, run to
completion with the given retry budget (`max_retries = 3` by default). -/
def retryRun {α : Type} (f : ℕ → CallOutcome α) (max_retries : ℕ) : RetryResult α :=
  retryGo f 0 max_retries

/-- Claim C6: when the peer never responds (every attempt times out) and
the retry count is 3, the exchange makes exactly 3 send attempts and then
raises the timeout error to the caller; a non-timeout failure propagates
without retry, and a successful attempt returns at once. -/
theorem retry_three_attempts :
    retryRun (fun _ => CallOutcome.timeout (α := Unit)) 3 = .raisedTimeout 3 ∧
    (∀ f : ℕ → CallOutcome Unit, f 0 = .otherError → retryRun f 3 = .raisedOther 1) ∧
    (∀ (f : ℕ → CallOutcome Unit) (a : Unit), f 0 = .ok a → retryRun f 3 = .value a 1) := by
  refine ⟨rfl, ?_, ?_⟩
  · intro f hf
    simp [retryRun, retryGo, hf]
  · intro f a hf
    simp [retryRun, retryGo, hf]

/-! ## Goto polling (motorizedbase.py lines 261-280) -/

/-- `AzGti.is_running`: true when either motor's status reports running. -/
def is_running (azimuth_running declination_running : Bool) : Bool :=
  azimuth_running || declination_running

/-- The poll loop of `AzGti.goto` after the mode/target/start commands:
while `is_running()` holds, sleep one cadence and, when a
`sampling_function` is supplied, append one sample per iteration.
`running i` is the mount's combined running flag at the i-th poll; `fuel`
bounds the unrolling of the (physically unbounded) while loop. -/
def gotoRun {α : Type} (running : ℕ → Bool) (sampling_function : Option (ℕ → α)) :
    ℕ → ℕ → List α
  | 0, _ => []
  | fuel + 1, i =>
    if running i then
      (match sampling_function with
       | some s => [s i]
       | none => []) ++ gotoRun running sampling_function fuel (i + 1)
    else []

/-- A mock axis pair whose combined running flag becomes false after
exactly `n` polls: the azimuth motor runs for the first `n` status
inquiries, the declination motor never runs. -/
def mock_running (n i : ℕ) : Bool := is_running (decide (i < n)) false

/-- Claim C8: against an axis pair that stops running after exactly 2
polls, `goto` returns a sample list of length 2 when a sampler is
supplied (one sample per poll iteration) and the empty list when none
is supplied. -/
theorem goto_sample_count :
    (∀ s : ℕ → ℕ, (gotoRun (mock_running 2) (some s) 10 0).length = 2) ∧
    gotoRun (mock_running 2) (none : Option (ℕ → ℕ)) 10 0 = [] := by
  constructor
  · intro s; rfl
  · rfl
